import Mathlib

/-!
Verification of the payoff-computation and chart-geometry core of the
option-payoff UI (functions `clampNumber`, `normType`, `payoffAtPrice`,
`buildPayoffSeries`, `svgPathFromSeries`).

JavaScript numbers are modelled by `JsNum`: an exact rational together
with the three non-finite values `inf`, `ninf` and `nan`.  The arithmetic
operations used by the code (`+`, `-`, `*`, `/`, `Math.max`, `Math.min`,
`<`, `Number.isFinite`, `||`-fallback on a number) follow the JavaScript
semantics for those values: `nan` is absorbing, `inf - inf = nan`,
`inf * 0 = nan`, `0 / 0 = nan`, a nonzero finite over zero is a signed
infinity, and `Math.max`/`Math.min` return `nan` if any argument is `nan`.
Finite values are exact rationals (rounding is not modelled; the claims
under study are exact arithmetic identities).
-/

/-- A JavaScript number: a finite rational, `Infinity`, `-Infinity` or `NaN`. -/
inductive JsNum : Type where
  | fin : ℚ → JsNum
  | inf : JsNum
  | ninf : JsNum
  | nan : JsNum
deriving DecidableEq

/-- JavaScript addition. -/
def JsNum.add : JsNum → JsNum → JsNum
  | .nan, _ => .nan
  | _, .nan => .nan
  | .inf, .ninf => .nan
  | .inf, _ => .inf
  | .ninf, .inf => .nan
  | .ninf, _ => .ninf
  | .fin _, .inf => .inf
  | .fin _, .ninf => .ninf
  | .fin a, .fin b => .fin (a + b)

/-- JavaScript subtraction. -/
def JsNum.sub : JsNum → JsNum → JsNum
  | .nan, _ => .nan
  | _, .nan => .nan
  | .inf, .inf => .nan
  | .inf, _ => .inf
  | .ninf, .ninf => .nan
  | .ninf, _ => .ninf
  | .fin _, .inf => .ninf
  | .fin _, .ninf => .inf
  | .fin a, .fin b => .fin (a - b)

/-- JavaScript multiplication (`inf * 0 = nan`). -/
def JsNum.mul : JsNum → JsNum → JsNum
  | .nan, _ => .nan
  | _, .nan => .nan
  | .fin a, .fin b => .fin (a * b)
  | .inf, .inf => .inf
  | .inf, .ninf => .ninf
  | .ninf, .inf => .ninf
  | .ninf, .ninf => .inf
  | .inf, .fin b => if 0 < b then .inf else if b < 0 then .ninf else .nan
  | .fin a, .inf => if 0 < a then .inf else if a < 0 then .ninf else .nan
  | .ninf, .fin b => if 0 < b then .ninf else if b < 0 then .inf else .nan
  | .fin a, .ninf => if 0 < a then .ninf else if a < 0 then .inf else .nan

/-- JavaScript division (`0 / 0 = nan`, nonzero over zero is signed infinity,
a rational has no negative zero so `x / 0` takes the sign of `x`). -/
def JsNum.div : JsNum → JsNum → JsNum
  | .nan, _ => .nan
  | _, .nan => .nan
  | .inf, .inf => .nan
  | .inf, .ninf => .nan
  | .ninf, .inf => .nan
  | .ninf, .ninf => .nan
  | .inf, .fin b => if b < 0 then .ninf else .inf
  | .ninf, .fin b => if b < 0 then .inf else .ninf
  | .fin _, .inf => .fin 0
  | .fin _, .ninf => .fin 0
  | .fin a, .fin b =>
      if b = 0 then (if a = 0 then .nan else if 0 < a then .inf else .ninf)
      else .fin (a / b)

/-- `Math.max` on two arguments: `nan` if either argument is `nan`. -/
def JsNum.max : JsNum → JsNum → JsNum
  | .nan, _ => .nan
  | _, .nan => .nan
  | .inf, _ => .inf
  | _, .inf => .inf
  | .ninf, b => b
  | a, .ninf => a
  | .fin a, .fin b => .fin (Max.max a b)

/-- `Math.min` on two arguments: `nan` if either argument is `nan`. -/
def JsNum.min : JsNum → JsNum → JsNum
  | .nan, _ => .nan
  | _, .nan => .nan
  | .ninf, _ => .ninf
  | _, .ninf => .ninf
  | .inf, b => b
  | a, .inf => a
  | .fin a, .fin b => .fin (Min.min a b)

/-- JavaScript `<` (any comparison with `nan` is false). -/
def JsNum.lt : JsNum → JsNum → Bool
  | .nan, _ => false
  | _, .nan => false
  | .ninf, .ninf => false
  | .ninf, _ => true
  | _, .ninf => false
  | .inf, _ => false
  | .fin _, .inf => true
  | .fin a, .fin b => decide (a < b)

/-- JavaScript `a > b`, i.e. `b < a`. -/
def JsNum.gt (a b : JsNum) : Bool := JsNum.lt b a

/-- `Number.isFinite`. -/
def JsNum.isFinite : JsNum → Bool
  | .fin _ => true
  | _ => false

/-- `clampNumber(v, fallback)`: a finite number passes through, anything
non-finite becomes the fallback.  (The `Number(v)` string coercion of the
source is outside the numeric model; inputs are already numbers here.) -/
def clampNumber (v fallback : JsNum) : JsNum :=
  if v.isFinite then v else fallback

/-- `normType(t)`: the string `P` stays `P`, anything else becomes `C`. -/
def normType (t : String) : String :=
  if t = "P" then "P" else "C"

/-- One option leg as the UI passes it to the core: `side` and `type` are
strings, `qty` and `strike` arbitrary numbers (the `id`/`exp` fields are UI
metadata unused by the computation and omitted). -/
structure Leg : Type where
  side : String
  type : String
  qty : JsNum
  strike : JsNum
deriving DecidableEq

/-- `payoffAtPrice(leg, S)`: intrinsic payoff of one leg at underlying
price `S`.  Strike and quantity are clamped; the price `S` is used as is. -/
def payoffAtPrice (leg : Leg) (S : JsNum) : JsNum :=
  let K := clampNumber leg.strike (.fin 0)
  let qty := clampNumber leg.qty (.fin 0)
  let side : JsNum := if leg.side = "SHORT" then .fin (-1) else .fin 1
  let type := normType leg.type
  let intrinsic : JsNum :=
    if type = "C" then JsNum.max (.fin 0) (S.sub K)
    else JsNum.max (.fin 0) (K.sub S)
  ((side.mul qty).mul intrinsic).mul (.fin 100)

/-- The `total` accumulation loop of `buildPayoffSeries`: sum of
`payoffAtPrice` over the legs, starting from `0`, in JavaScript addition. -/
def legsTotal (legs : List Leg) (S : JsNum) : JsNum :=
  legs.foldl (fun acc leg => acc.add (payoffAtPrice leg S)) (.fin 0)

/-- Result record of `buildPayoffSeries`. -/
structure Series : Type where
  xs : List JsNum
  ys : List JsNum
  minS : JsNum
  maxS : JsNum
deriving DecidableEq

/-- `buildPayoffSeries(legs, spot)`: 201 samples of the aggregate payoff on
the window `[max(1, center/2), center * 3/2]` where `center` is the clamped
spot when positive and `100` otherwise. -/
def buildPayoffSeries (legs : List Leg) (spot : JsNum) : Series :=
  let S0 := clampNumber spot (.fin 0)
  let center := if S0.gt (.fin 0) then S0 else .fin 100
  let minS := JsNum.max (.fin 1) (center.mul (.fin (1/2)))
  let maxS := center.mul (.fin (3/2))
  let steps : ℕ := 200
  let step := (maxS.sub minS).div (.fin 200)
  let xs := (List.range (steps + 1)).map (fun i : ℕ => minS.add (step.mul (.fin (i : ℚ))))
  let ys := xs.map (fun S => legsTotal legs S)
  { xs := xs, ys := ys, minS := minS, maxS := maxS }

/-- One SVG path command: the first sample emits `M x y`, later samples `L x y`. -/
inductive PathCmd : Type where
  | moveTo : JsNum → JsNum → PathCmd
  | lineTo : JsNum → JsNum → PathCmd
deriving DecidableEq

/-- The pixel x-coordinate carried by a path command. -/
def PathCmd.xCoord : PathCmd → JsNum
  | .moveTo x _ => x
  | .lineTo x _ => x

/-- The pixel y-coordinate carried by a path command. -/
def PathCmd.yCoord : PathCmd → JsNum
  | .moveTo _ y => y
  | .lineTo _ y => y

/-- The `bounds` record returned by `svgPathFromSeries`, including the two
coordinate-mapping functions and the pixel y of payoff zero. -/
structure Bounds : Type where
  xMin : JsNum
  xMax : JsNum
  yMin : JsNum
  yMax : JsNum
  yZero : JsNum
  xToPx : JsNum → JsNum
  yToPx : JsNum → JsNum

/-- Result of `svgPathFromSeries`: the path command list and optional bounds. -/
structure SvgResult : Type where
  path : List PathCmd
  bounds : Option Bounds

/-- JavaScript `d || 1` on a number: `0` and `nan` are falsy and fall back
to `1`; everything else passes through. -/
def jsOr1 : JsNum → JsNum
  | .fin q => if q = 0 then .fin 1 else .fin q
  | .nan => .fin 1
  | .inf => .inf
  | .ninf => .ninf

/-- JavaScript array indexing `l[i]` inside numeric arithmetic: an
out-of-bounds read yields `undefined`, which behaves as `nan` in every
operation the code performs on it. -/
def jsIndex (l : List JsNum) (i : ℕ) : JsNum :=
  l.getD i .nan

/-- The `xToPx` closure of `svgPathFromSeries`:
`padding + ((x - xMin) / (xMax - xMin)) * innerW`. -/
def xToPxFun (xMin xMax innerW padding : JsNum) : JsNum → JsNum :=
  fun x => padding.add (((x.sub xMin).div (xMax.sub xMin)).mul innerW)

/-- The `yToPx` closure of `svgPathFromSeries`:
`padding + (1 - (y - yMin) / (yMax - yMin || 1)) * innerH`. -/
def yToPxFun (yMin yMax innerH padding : JsNum) : JsNum → JsNum :=
  fun y => padding.add (((JsNum.fin 1).sub ((y.sub yMin).div (jsOr1 (yMax.sub yMin)))).mul innerH)

/-- `svgPathFromSeries(xs, ys, width, height, padding)`: empty input gives an
empty path and no bounds; otherwise x-bounds come from `xs`, y-bounds from
`ys` with `0` always included, and each sample is mapped linearly into the
padded viewport, with the y-divisor falling back to `1` when zero. -/
def svgPathFromSeries (xs ys : List JsNum) (width height padding : JsNum) : SvgResult :=
  if xs.length = 0 then { path := [], bounds := none }
  else
    let xMin := List.foldl JsNum.min .inf xs
    let xMax := List.foldl JsNum.max .ninf xs
    let yMin := List.foldl JsNum.min .inf (ys ++ [.fin 0])
    let yMax := List.foldl JsNum.max .ninf (ys ++ [.fin 0])
    let innerW := width.sub (padding.mul (.fin 2))
    let innerH := height.sub (padding.mul (.fin 2))
    let xToPx := xToPxFun xMin xMax innerW padding
    let yToPx := yToPxFun yMin yMax innerH padding
    let path := (List.range xs.length).map (fun i =>
      if i = 0 then PathCmd.moveTo (xToPx (jsIndex xs i)) (yToPx (jsIndex ys i))
      else PathCmd.lineTo (xToPx (jsIndex xs i)) (yToPx (jsIndex ys i)))
    let yZero := yToPx (.fin 0)
    { path := path,
      bounds := some { xMin := xMin, xMax := xMax, yMin := yMin, yMax := yMax,
                       yZero := yZero, xToPx := xToPx, yToPx := yToPx } }

/-- The linear pixel map for prices, as the specification states it:
`pixel_x = padding + (price - xMin) / (xMax - xMin) * innerWidth`. -/
def specPixelX (pad lo hi innerW x : ℚ) : ℚ :=
  pad + (x - lo) / (hi - lo) * innerW

/-- The inverted linear pixel map for payoffs, as the specification states
it: `pixel_y = padding + (1 - (payoff - yMin) / (yMax - yMin)) * innerHeight`. -/
def specPixelY (pad lo hi innerH y : ℚ) : ℚ :=
  pad + (1 - (y - lo) / (hi - lo)) * innerH

/-- Rational value of `clampNumber v 0`: the rational when `v` is finite, `0`
otherwise. -/
def clampQ : JsNum → ℚ
  | .fin q => q
  | _ => 0

/-- Rational center used by `buildPayoffSeries`: the clamped spot when
positive, otherwise the fallback `100`. -/
def centerQ (spot : JsNum) : ℚ :=
  if 0 < clampQ spot then clampQ spot else 100

/-- Rational lower window bound of `buildPayoffSeries`. -/
def minSQ (spot : JsNum) : ℚ := Max.max 1 (centerQ spot * (1/2))

/-- Rational upper window bound of `buildPayoffSeries`. -/
def maxSQ (spot : JsNum) : ℚ := centerQ spot * (3/2)

/-- Rational step of `buildPayoffSeries`. -/
def stepQ (spot : JsNum) : ℚ := (maxSQ spot - minSQ spot) / 200

/-! ### Basic reduction lemmas for finite operands -/

@[simp] lemma JsNum.add_fin_fin (a b : ℚ) : (JsNum.fin a).add (.fin b) = .fin (a + b) := rfl

@[simp] lemma JsNum.sub_fin_fin (a b : ℚ) : (JsNum.fin a).sub (.fin b) = .fin (a - b) := rfl

@[simp] lemma JsNum.mul_fin_fin (a b : ℚ) : (JsNum.fin a).mul (.fin b) = .fin (a * b) := rfl

@[simp] lemma JsNum.max_fin_fin (a b : ℚ) :
    (JsNum.fin a).max (.fin b) = .fin (Max.max a b) := rfl

@[simp] lemma JsNum.min_fin_fin (a b : ℚ) :
    (JsNum.fin a).min (.fin b) = .fin (Min.min a b) := rfl

@[simp] lemma JsNum.lt_fin_fin (a b : ℚ) : (JsNum.fin a).lt (.fin b) = decide (a < b) := rfl

lemma JsNum.div_fin_fin (a b : ℚ) (h : b ≠ 0) :
    (JsNum.fin a).div (.fin b) = .fin (a / b) := by
  simp [JsNum.div, h]

@[simp] lemma JsNum.isFinite_fin (a : ℚ) : (JsNum.fin a).isFinite = true := rfl

lemma clampNumber_zero (v : JsNum) : clampNumber v (.fin 0) = .fin (clampQ v) := by
  cases v <;> rfl

/-- Closed form of `payoffAtPrice` at a finite price. -/
lemma payoffAtPrice_fin (leg : Leg) (s : ℚ) :
    payoffAtPrice leg (.fin s) =
      .fin ((if leg.side = "SHORT" then (-1 : ℚ) else 1) * clampQ leg.qty *
        (if leg.type = "P" then Max.max 0 (clampQ leg.strike - s)
         else Max.max 0 (s - clampQ leg.strike)) * 100) := by
  by_cases ht : leg.type = "P" <;> by_cases hs : leg.side = "SHORT" <;>
    simp [payoffAtPrice, normType, clampNumber_zero, ht, hs]

/-! ### Fold bridges between `JsNum` min/max and rational min/max -/

lemma foldl_jsmin_fin (l : List ℚ) (a : ℚ) :
    List.foldl JsNum.min (.fin a) (l.map .fin) = .fin (List.foldl Min.min a l) := by
  induction l generalizing a with
  | nil => rfl
  | cons x t ih => simpa using ih (Min.min a x)

lemma foldl_jsmax_fin_acc (l : List ℚ) (a : ℚ) :
    List.foldl JsNum.max (.fin a) (l.map .fin) = .fin (List.foldl Max.max a l) := by
  induction l generalizing a with
  | nil => rfl
  | cons x t ih => simpa using ih (Max.max a x)

lemma foldl_jsmin_inf (x : ℚ) (t : List ℚ) :
    List.foldl JsNum.min .inf ((x :: t).map .fin) = .fin (List.foldl Min.min x t) := by
  have h1 : JsNum.min .inf (.fin x) = .fin x := rfl
  simp only [List.map_cons, List.foldl_cons, h1]
  exact foldl_jsmin_fin t x

lemma foldl_jsmax_ninf (x : ℚ) (t : List ℚ) :
    List.foldl JsNum.max .ninf ((x :: t).map .fin) = .fin (List.foldl Max.max x t) := by
  have h1 : JsNum.max .ninf (.fin x) = .fin x := rfl
  simp only [List.map_cons, List.foldl_cons, h1]
  exact foldl_jsmax_fin_acc t x

lemma foldl_min_swap (t : List ℚ) :
    ∀ a b : ℚ, Min.min (List.foldl Min.min a t) b = List.foldl Min.min (Min.min b a) t := by
  induction t with
  | nil => intro a b; exact min_comm a b
  | cons x t ih =>
      intro a b
      simp only [List.foldl_cons]
      rw [ih]
      congr 1
      exact (min_assoc b a x).symm

lemma foldl_max_swap (t : List ℚ) :
    ∀ a b : ℚ, Max.max (List.foldl Max.max a t) b = List.foldl Max.max (Max.max b a) t := by
  induction t with
  | nil => intro a b; exact max_comm a b
  | cons x t ih =>
      intro a b
      simp only [List.foldl_cons]
      rw [ih]
      congr 1
      exact (max_assoc b a x).symm

lemma foldl_jsmin_append_zero (ys : List ℚ) :
    List.foldl JsNum.min .inf (ys.map .fin ++ [.fin 0]) =
      .fin (List.foldl Min.min 0 ys) := by
  cases ys with
  | nil => rfl
  | cons y t =>
      have h : (y :: t).map JsNum.fin ++ [JsNum.fin 0] = ((y :: (t ++ [0])).map .fin) := by
        simp
      rw [h, foldl_jsmin_inf, List.foldl_append]
      simp only [List.foldl_cons, List.foldl_nil]
      rw [foldl_min_swap]

lemma foldl_jsmax_append_zero (ys : List ℚ) :
    List.foldl JsNum.max .ninf (ys.map .fin ++ [.fin 0]) =
      .fin (List.foldl Max.max 0 ys) := by
  cases ys with
  | nil => rfl
  | cons y t =>
      have h : (y :: t).map JsNum.fin ++ [JsNum.fin 0] = ((y :: (t ++ [0])).map .fin) := by
        simp
      rw [h, foldl_jsmax_ninf, List.foldl_append]
      simp only [List.foldl_cons, List.foldl_nil]
      rw [foldl_max_swap]

/-! ### Indexing lemmas -/

lemma jsIndex_range_map (f : ℕ → JsNum) (n i : ℕ) (h : i < n) :
    jsIndex ((List.range n).map f) i = f i := by
  simp [jsIndex, List.getD_eq_getElem?_getD, List.getElem?_map, List.getElem?_range h]

lemma jsIndex_map_fin (l : List ℚ) (i : ℕ) (h : i < l.length) :
    jsIndex (l.map .fin) i = .fin (l.getD i 0) := by
  simp [jsIndex, List.getD_eq_getElem?_getD, List.getElem?_map, List.getElem?_eq_getElem h]

lemma JsNum.div_fin_200 (a : ℚ) : (JsNum.fin a).div (.fin 200) = .fin (a / 200) := by
  have h : (200 : ℚ) ≠ 0 := by norm_num
  simp [JsNum.div, h]

lemma buildPayoffSeries_minS (legs : List Leg) (spot : JsNum) :
    (buildPayoffSeries legs spot).minS = .fin (minSQ spot) := by
  by_cases hc : 0 < clampQ spot <;>
    simp [buildPayoffSeries, clampNumber_zero, JsNum.gt, JsNum.lt, minSQ, centerQ, hc]

lemma buildPayoffSeries_maxS (legs : List Leg) (spot : JsNum) :
    (buildPayoffSeries legs spot).maxS = .fin (maxSQ spot) := by
  by_cases hc : 0 < clampQ spot <;>
    simp [buildPayoffSeries, clampNumber_zero, JsNum.gt, JsNum.lt, maxSQ, centerQ, hc]

lemma buildPayoffSeries_xs (legs : List Leg) (spot : JsNum) :
    (buildPayoffSeries legs spot).xs =
      (List.range 201).map (fun i => .fin (minSQ spot + stepQ spot * (i : ℚ))) := by
  by_cases hc : 0 < clampQ spot <;>
    simp only [buildPayoffSeries, clampNumber_zero, JsNum.gt, JsNum.lt_fin_fin,
      decide_eq_true_eq, hc, if_true, if_false, iff_true, iff_false, eq_self_iff_true,
      Nat.reduceAdd, JsNum.mul_fin_fin, JsNum.max_fin_fin, JsNum.sub_fin_fin,
      JsNum.div_fin_200, JsNum.add_fin_fin, minSQ, maxSQ, stepQ, centerQ]

lemma buildPayoffSeries_ys (legs : List Leg) (spot : JsNum) :
    (buildPayoffSeries legs spot).ys =
      (buildPayoffSeries legs spot).xs.map (legsTotal legs) := rfl

lemma buildPayoffSeries_xs_length (legs : List Leg) (spot : JsNum) :
    (buildPayoffSeries legs spot).xs.length = 201 := by
  rw [buildPayoffSeries_xs]; simp

lemma buildPayoffSeries_ys_length (legs : List Leg) (spot : JsNum) :
    (buildPayoffSeries legs spot).ys.length = 201 := by
  rw [buildPayoffSeries_ys, List.length_map, buildPayoffSeries_xs_length]

lemma buildPayoffSeries_xs_index (legs : List Leg) (spot : JsNum) (i : ℕ) (h : i < 201) :
    jsIndex (buildPayoffSeries legs spot).xs i = .fin (minSQ spot + stepQ spot * (i : ℚ)) := by
  rw [buildPayoffSeries_xs]; exact jsIndex_range_map _ 201 i h

lemma buildPayoffSeries_ys_index (legs : List Leg) (spot : JsNum) (i : ℕ) (h : i < 201) :
    jsIndex (buildPayoffSeries legs spot).ys i =
      legsTotal legs (.fin (minSQ spot + stepQ spot * (i : ℚ))) := by
  rw [buildPayoffSeries_ys, buildPayoffSeries_xs, List.map_map]
  exact jsIndex_range_map _ 201 i h

/-! ### Claim theorems -/

/-- C1: for every leg and every (finite) underlying price `S`,
`payoffAtPrice` returns `sign(side) * quantity * intrinsic * 100` with
`intrinsic = max(0, S - K)` for calls and `max(0, K - S)` for puts, `LONG`
contributing `+1` and `SHORT` contributing `-1`; in particular the leg
`{LONG, CALL, qty 1, strike 500}` pays `5000` at `S = 550` and `0` at
`S = 450`. -/
theorem payoffAtPrice_formula :
    (∀ k q s : ℚ, payoffAtPrice ⟨"LONG", "C", .fin q, .fin k⟩ (.fin s) =
      .fin (1 * q * Max.max 0 (s - k) * 100)) ∧
    (∀ k q s : ℚ, payoffAtPrice ⟨"LONG", "P", .fin q, .fin k⟩ (.fin s) =
      .fin (1 * q * Max.max 0 (k - s) * 100)) ∧
    (∀ k q s : ℚ, payoffAtPrice ⟨"SHORT", "C", .fin q, .fin k⟩ (.fin s) =
      .fin ((-1) * q * Max.max 0 (s - k) * 100)) ∧
    (∀ k q s : ℚ, payoffAtPrice ⟨"SHORT", "P", .fin q, .fin k⟩ (.fin s) =
      .fin ((-1) * q * Max.max 0 (k - s) * 100)) ∧
    payoffAtPrice ⟨"LONG", "C", .fin 1, .fin 500⟩ (.fin 550) = .fin 5000 ∧
    payoffAtPrice ⟨"LONG", "C", .fin 1, .fin 500⟩ (.fin 450) = .fin 0 := by
  have h1 : ¬("LONG" = "SHORT") := by decide
  have h2 : ¬("C" = "P") := by decide
  refine ⟨?_, ?_, ?_, ?_,
    by rw [payoffAtPrice_fin]; rw [if_neg h1, if_neg h2]; norm_num [clampQ],
    by rw [payoffAtPrice_fin]; rw [if_neg h1, if_neg h2]; norm_num [clampQ]⟩ <;>
    (intro k q s; rw [payoffAtPrice_fin]; simp [clampQ])

/-- C9: `svgPathFromSeries` applied to an empty input sequence returns an
empty path and absent bounds, for every width, height and padding. -/
theorem svgPathFromSeries_empty (ys : List JsNum) (w h p : JsNum) :
    (svgPathFromSeries [] ys w h p).path = [] ∧
    (svgPathFromSeries [] ys w h p).bounds = none := by
  constructor <;> rfl

/-- C4: the series window uses `center = spot` when the normalized spot is
positive and the fallback `100` otherwise; the window is
`[center * 0.5, center * 1.5]` with the lower bound clamped to at least `1`,
so `minS ≥ 1` for every spot, including zero, negative and non-finite. -/
theorem buildPayoffSeries_window (legs : List Leg) (spot : JsNum) :
    (∀ q : ℚ, spot = .fin q → 0 < q →
      (buildPayoffSeries legs spot).minS = .fin (Max.max 1 (q * (1/2))) ∧
      (buildPayoffSeries legs spot).maxS = .fin (q * (3/2))) ∧
    (∀ q : ℚ, spot = .fin q → q ≤ 0 →
      (buildPayoffSeries legs spot).minS = .fin (Max.max 1 (100 * (1/2))) ∧
      (buildPayoffSeries legs spot).maxS = .fin (100 * (3/2))) ∧
    (spot.isFinite = false →
      (buildPayoffSeries legs spot).minS = .fin (Max.max 1 (100 * (1/2))) ∧
      (buildPayoffSeries legs spot).maxS = .fin (100 * (3/2))) ∧
    (∃ m : ℚ, (buildPayoffSeries legs spot).minS = .fin m ∧ 1 ≤ m) := by
  refine ⟨?_, ?_, ?_, ?_⟩
  · intro q hq hpos
    subst hq
    rw [buildPayoffSeries_minS, buildPayoffSeries_maxS]
    have hc : clampQ (JsNum.fin q) = q := rfl
    constructor <;> simp [minSQ, maxSQ, centerQ, hc, hpos]
  · intro q hq hle
    subst hq
    rw [buildPayoffSeries_minS, buildPayoffSeries_maxS]
    have hc : clampQ (JsNum.fin q) = q := rfl
    have hnpos : ¬(0 < clampQ (JsNum.fin q)) := by rw [hc]; exact not_lt.mpr hle
    constructor <;> simp [minSQ, maxSQ, centerQ, hnpos]
  · intro hnf
    have hc : clampQ spot = 0 := by
      cases spot <;> simp_all [clampQ, JsNum.isFinite]
    rw [buildPayoffSeries_minS, buildPayoffSeries_maxS]
    constructor <;> simp [minSQ, maxSQ, centerQ, hc]
  · exact ⟨minSQ spot, buildPayoffSeries_minS legs spot, le_max_left 1 _⟩

/-- Witness for C4: at spot `200` the window is `[100, 300]`. -/
theorem buildPayoffSeries_window_witness :
    (buildPayoffSeries [] (.fin 200)).minS = .fin (Max.max 1 (200 * (1/2))) ∧
    (buildPayoffSeries [] (.fin 200)).maxS = .fin (200 * (3/2)) :=
  (buildPayoffSeries_window [] (.fin 200)).1 200 rfl (by norm_num)

/-- C2 (amended): `buildPayoffSeries` always returns exactly 201 `xs` and 201
`ys`; the `xs` are strictly increasing whenever the normalized spot, if
positive, exceeds `2/3` — in particular for every non-positive or non-finite
spot, where the fallback center `100` applies.  (For `0 < spot ≤ 2/3` the
clamp `minS = 1` exceeds `maxS = 1.5 * spot`, so the step is non-positive.) -/
theorem buildPayoffSeries_samples (legs : List Leg) (spot : JsNum) :
    (buildPayoffSeries legs spot).xs.length = 201 ∧
    (buildPayoffSeries legs spot).ys.length = 201 ∧
    ((0 < clampQ spot → 2/3 < clampQ spot) →
      ∀ i j : ℕ, i < j → j < 201 →
        (jsIndex (buildPayoffSeries legs spot).xs i).lt
          (jsIndex (buildPayoffSeries legs spot).xs j) = true) := by
  refine ⟨buildPayoffSeries_xs_length legs spot, buildPayoffSeries_ys_length legs spot, ?_⟩
  intro hspot i j hij hj
  have hstep : 0 < stepQ spot := by
    by_cases hc : 0 < clampQ spot
    · have h23 := hspot hc
      simp only [stepQ, maxSQ, minSQ, centerQ, if_pos hc]
      rcases le_or_lt 1 (clampQ spot * (1/2)) with h | h
      · rw [max_eq_right h]
        apply div_pos
        · linarith
        · norm_num
      · rw [max_eq_left h.le]
        apply div_pos
        · linarith
        · norm_num
    · simp only [stepQ, maxSQ, minSQ, centerQ, if_neg hc]
      norm_num
  rw [buildPayoffSeries_xs_index legs spot i (lt_trans hij hj),
    buildPayoffSeries_xs_index legs spot j hj, JsNum.lt_fin_fin, decide_eq_true_eq]
  have hij' : (i : ℚ) < (j : ℚ) := by exact_mod_cast hij
  have := mul_lt_mul_of_pos_left hij' hstep
  linarith

/-- Witness for C2: at spot `100` there are 201 samples and `xs 0 < xs 1`. -/
theorem buildPayoffSeries_samples_witness :
    (buildPayoffSeries [] (.fin 100)).xs.length = 201 ∧
    (jsIndex (buildPayoffSeries [] (.fin 100)).xs 0).lt
      (jsIndex (buildPayoffSeries [] (.fin 100)).xs 1) = true := by
  refine ⟨(buildPayoffSeries_samples [] (.fin 100)).1, ?_⟩
  exact (buildPayoffSeries_samples [] (.fin 100)).2.2
    (fun _ => by norm_num [clampQ]) 0 1 (by norm_num) (by norm_num)

/-- Counterexample for C2 as stated: at spot `1/2` the 201 sample prices are
strictly decreasing — `xs 1 < xs 0` and not `xs 0 < xs 1`. -/
theorem buildPayoffSeries_xs_not_increasing :
    (buildPayoffSeries [] (.fin (1/2))).xs.length = 201 ∧
    (jsIndex (buildPayoffSeries [] (.fin (1/2))).xs 0).lt
      (jsIndex (buildPayoffSeries [] (.fin (1/2))).xs 1) = false ∧
    (jsIndex (buildPayoffSeries [] (.fin (1/2))).xs 1).lt
      (jsIndex (buildPayoffSeries [] (.fin (1/2))).xs 0) = true := by
  refine ⟨buildPayoffSeries_xs_length _ _, ?_, ?_⟩ <;>
  · rw [buildPayoffSeries_xs_index _ _ 0 (by norm_num),
      buildPayoffSeries_xs_index _ _ 1 (by norm_num), JsNum.lt_fin_fin]
    norm_num [minSQ, maxSQ, stepQ, centerQ, clampQ]

/-- C3 counterexample: `payoffAtPrice` does not normalize its price argument;
at price `NaN` (with the unit long call at strike 0) it returns `NaN`,
which is not finite. -/
theorem payoffAtPrice_nan_price :
    (payoffAtPrice ⟨"LONG", "C", .fin 1, .fin 0⟩ .nan).isFinite = false := rfl

/-- Sum loop over legs at a finite price stays finite, for any finite start. -/
lemma foldl_payoff_fin (legs : List Leg) (s : ℚ) :
    ∀ a : ℚ, ∃ q : ℚ,
      legs.foldl (fun (acc : JsNum) (leg : Leg) => acc.add (payoffAtPrice leg (.fin s)))
        (JsNum.fin a) = .fin q := by
  induction legs with
  | nil => exact fun a => ⟨a, rfl⟩
  | cons l t ih =>
      intro a
      simp only [List.foldl_cons]
      rw [payoffAtPrice_fin, JsNum.add_fin_fin]
      exact ih _

lemma legsTotal_fin (legs : List Leg) (s : ℚ) :
    ∃ q : ℚ, legsTotal legs (.fin s) = .fin q :=
  foldl_payoff_fin legs s 0

/-- C3 (amended): the leg's numeric fields are normalized, and for every leg
and every finite price `payoffAtPrice` returns a finite value; every sample
the series builder outputs (both `xs` and `ys`) is finite for every legs
list and every spot, including non-finite spot.  The price argument of
`payoffAtPrice` itself is not normalized (see the counterexample), but the
program's callers only pass normalized or constructed finite prices. -/
theorem payoff_core_finite :
    (∀ (leg : Leg) (s : ℚ), ∃ q : ℚ, payoffAtPrice leg (.fin s) = .fin q) ∧
    (∀ (legs : List Leg) (spot : JsNum),
      (∀ x, x ∈ (buildPayoffSeries legs spot).xs → x.isFinite = true) ∧
      (∀ y, y ∈ (buildPayoffSeries legs spot).ys → y.isFinite = true)) := by
  refine ⟨fun leg s => ⟨_, payoffAtPrice_fin leg s⟩, fun legs spot => ⟨?_, ?_⟩⟩
  · intro x hx
    rw [buildPayoffSeries_xs] at hx
    rcases List.mem_map.mp hx with ⟨i, _, rfl⟩
    rfl
  · intro y hy
    rw [buildPayoffSeries_ys, buildPayoffSeries_xs] at hy
    rcases List.mem_map.mp hy with ⟨x, hx, rfl⟩
    rcases List.mem_map.mp hx with ⟨i, _, rfl⟩
    obtain ⟨q, hq⟩ := legsTotal_fin legs (minSQ spot + stepQ spot * (i : ℚ))
    rw [hq]
    rfl

/-- Witness for C3 (amended): a concrete element of the sample list of
`buildPayoffSeries` at spot `100` is finite. -/
theorem payoff_core_finite_witness :
    ∃ x, x ∈ (buildPayoffSeries [] (.fin 100)).xs ∧ x.isFinite = true := by
  have hlen : 0 < (buildPayoffSeries [] (.fin 100)).xs.length := by
    rw [buildPayoffSeries_xs_length]; norm_num
  have hx := List.get_mem (buildPayoffSeries [] (.fin 100)).xs 0 hlen
  exact ⟨_, hx, (payoff_core_finite.2 [] (.fin 100)).1 _ hx⟩

/-- C5: each `ys i` is the sum over the legs of `payoffAtPrice` at `xs i`;
with no legs every `ys i` is `0`; and the two-leg call spread
`{LONG, C, 1, 500}` / `{SHORT, C, 1, 520}` has aggregate payoff `2000` at
price `530`. -/
theorem buildPayoffSeries_ys_sum (legs : List Leg) (spot : JsNum) :
    (∀ i : ℕ, i < 201 →
      jsIndex (buildPayoffSeries legs spot).ys i =
        legsTotal legs (jsIndex (buildPayoffSeries legs spot).xs i)) ∧
    (∀ i : ℕ, i < 201 → jsIndex (buildPayoffSeries [] spot).ys i = .fin 0) ∧
    legsTotal [⟨"LONG", "C", .fin 1, .fin 500⟩, ⟨"SHORT", "C", .fin 1, .fin 520⟩]
      (.fin 530) = .fin 2000 := by
  have h1 : ¬("LONG" = "SHORT") := by decide
  have h2 : ¬("C" = "P") := by decide
  refine ⟨?_, ?_, ?_⟩
  · intro i hi
    rw [buildPayoffSeries_ys_index legs spot i hi, buildPayoffSeries_xs_index legs spot i hi]
  · intro i hi
    rw [buildPayoffSeries_ys_index [] spot i hi]
    rfl
  · simp only [legsTotal, List.foldl_cons, List.foldl_nil, payoffAtPrice_fin,
      if_neg h1, if_neg h2, if_pos rfl, JsNum.add_fin_fin]
    norm_num [clampQ]

/-- Witness for C5: at spot `100` with no legs, sample `0` of `ys` is `0`. -/
theorem buildPayoffSeries_ys_sum_witness :
    jsIndex (buildPayoffSeries [] (.fin 100)).ys 0 = .fin 0 :=
  (buildPayoffSeries_ys_sum [] (.fin 100)).2.1 0 (by norm_num)

/-! ### Unfolding and evaluation lemmas for `svgPathFromSeries` -/

lemma JsNum.nan_mul (x : JsNum) : JsNum.mul .nan x = .nan := by cases x <;> rfl

lemma JsNum.mul_nan (x : JsNum) : JsNum.mul x .nan = .nan := by cases x <;> rfl

lemma JsNum.nan_add (x : JsNum) : JsNum.add .nan x = .nan := by cases x <;> rfl

lemma JsNum.add_nan (x : JsNum) : JsNum.add x .nan = .nan := by cases x <;> rfl

lemma JsNum.zero_div_zero : (JsNum.fin 0).div (.fin 0) = .nan := by
  simp [JsNum.div]

lemma svg_nonempty_unfold (xs ys : List JsNum) (w h p : JsNum) (hne : xs.length ≠ 0) :
    svgPathFromSeries xs ys w h p =
      { path := (List.range xs.length).map (fun i =>
          if i = 0 then
            PathCmd.moveTo
              (xToPxFun (List.foldl JsNum.min .inf xs) (List.foldl JsNum.max .ninf xs)
                (w.sub (p.mul (.fin 2))) p (jsIndex xs i))
              (yToPxFun (List.foldl JsNum.min .inf (ys ++ [.fin 0]))
                (List.foldl JsNum.max .ninf (ys ++ [.fin 0]))
                (h.sub (p.mul (.fin 2))) p (jsIndex ys i))
          else
            PathCmd.lineTo
              (xToPxFun (List.foldl JsNum.min .inf xs) (List.foldl JsNum.max .ninf xs)
                (w.sub (p.mul (.fin 2))) p (jsIndex xs i))
              (yToPxFun (List.foldl JsNum.min .inf (ys ++ [.fin 0]))
                (List.foldl JsNum.max .ninf (ys ++ [.fin 0]))
                (h.sub (p.mul (.fin 2))) p (jsIndex ys i))),
        bounds := some
          { xMin := List.foldl JsNum.min .inf xs,
            xMax := List.foldl JsNum.max .ninf xs,
            yMin := List.foldl JsNum.min .inf (ys ++ [.fin 0]),
            yMax := List.foldl JsNum.max .ninf (ys ++ [.fin 0]),
            yZero := yToPxFun (List.foldl JsNum.min .inf (ys ++ [.fin 0]))
              (List.foldl JsNum.max .ninf (ys ++ [.fin 0]))
              (h.sub (p.mul (.fin 2))) p (.fin 0),
            xToPx := xToPxFun (List.foldl JsNum.min .inf xs) (List.foldl JsNum.max .ninf xs)
              (w.sub (p.mul (.fin 2))) p,
            yToPx := yToPxFun (List.foldl JsNum.min .inf (ys ++ [.fin 0]))
              (List.foldl JsNum.max .ninf (ys ++ [.fin 0]))
              (h.sub (p.mul (.fin 2))) p } } := by
  rw [svgPathFromSeries, if_neg hne]

lemma xToPxFun_fin_eval (lo hi w2 p x : ℚ) (hne : hi - lo ≠ 0) :
    xToPxFun (.fin lo) (.fin hi) (.fin w2) (.fin p) (.fin x) =
      .fin (specPixelX p lo hi w2 x) := by
  simp [xToPxFun, specPixelX, JsNum.div_fin_fin _ _ hne]

lemma yToPxFun_fin_eval (lo hi h2 p y : ℚ) (hne : hi - lo ≠ 0) :
    yToPxFun (.fin lo) (.fin hi) (.fin h2) (.fin p) (.fin y) =
      .fin (specPixelY p lo hi h2 y) := by
  have hor : jsOr1 (JsNum.fin (hi - lo)) = .fin (hi - lo) := by simp [jsOr1, hne]
  simp [yToPxFun, specPixelY, hor, JsNum.div_fin_fin _ _ hne]

lemma yToPxFun_fin_flat (h2 p y : ℚ) :
    yToPxFun (.fin 0) (.fin 0) (.fin h2) (.fin p) (.fin y) =
      .fin (p + (1 - y / 1) * h2) := by
  have hor : jsOr1 (JsNum.fin 0) = .fin 1 := by simp [jsOr1]
  have hdiv : (JsNum.fin y).div (.fin 1) = .fin (y / 1) :=
    JsNum.div_fin_fin _ _ one_ne_zero
  simp [yToPxFun, hor, hdiv]

lemma getD_range_map {α : Type} (f : ℕ → α) (d : α) (n i : ℕ) (h : i < n) :
    ((List.range n).map f).getD i d = f i := by
  simp [List.getD_eq_getElem?_getD, List.getElem?_map, List.getElem?_range h]

/-! ### Order facts about the rational folds -/

lemma foldl_min_le_init (l : List ℚ) : ∀ a : ℚ, List.foldl Min.min a l ≤ a := by
  induction l with
  | nil => intro a; exact le_refl a
  | cons x t ih => intro a; exact le_trans (ih (Min.min a x)) (min_le_left a x)

lemma foldl_max_ge_init (l : List ℚ) : ∀ a : ℚ, a ≤ List.foldl Max.max a l := by
  induction l with
  | nil => intro a; exact le_refl a
  | cons x t ih => intro a; exact le_trans (le_max_left a x) (ih (Max.max a x))

lemma foldl_min_le_mem (l : List ℚ) : ∀ a x : ℚ, x ∈ l → List.foldl Min.min a l ≤ x := by
  induction l with
  | nil => intro a x hx; simp at hx
  | cons c t ih =>
      intro a x hx
      rcases List.mem_cons.mp hx with rfl | hx
      · exact le_trans (foldl_min_le_init t (Min.min a x)) (min_le_right a x)
      · exact ih (Min.min a c) x hx

lemma foldl_max_ge_mem (l : List ℚ) : ∀ a x : ℚ, x ∈ l → x ≤ List.foldl Max.max a l := by
  induction l with
  | nil => intro a x hx; simp at hx
  | cons c t ih =>
      intro a x hx
      rcases List.mem_cons.mp hx with rfl | hx
      · exact le_trans (le_max_right a x) (foldl_max_ge_init t (Max.max a x))
      · exact ih (Max.max a c) x hx

/-! ### Folds over constant lists of one finite value -/

lemma foldl_jsmin_const (v : ℚ) :
    ∀ t : List JsNum, (∀ x ∈ t, x = .fin v) → List.foldl JsNum.min (.fin v) t = .fin v := by
  intro t
  induction t with
  | nil => intro _; rfl
  | cons c t ih =>
      intro hall
      have hc : c = .fin v := hall c (List.mem_cons_self c t)
      rw [List.foldl_cons, hc]
      have hm : JsNum.min (.fin v) (.fin v) = .fin v := by simp
      rw [hm]
      exact ih (fun x hx => hall x (List.mem_cons_of_mem c hx))

lemma foldl_jsmax_const (v : ℚ) :
    ∀ t : List JsNum, (∀ x ∈ t, x = .fin v) → List.foldl JsNum.max (.fin v) t = .fin v := by
  intro t
  induction t with
  | nil => intro _; rfl
  | cons c t ih =>
      intro hall
      have hc : c = .fin v := hall c (List.mem_cons_self c t)
      rw [List.foldl_cons, hc]
      have hm : JsNum.max (.fin v) (.fin v) = .fin v := by simp
      rw [hm]
      exact ih (fun x hx => hall x (List.mem_cons_of_mem c hx))

lemma foldl_jsmin_allv (v : ℚ) (xs : List JsNum) (hne : xs ≠ [])
    (hall : ∀ x ∈ xs, x = .fin v) : List.foldl JsNum.min .inf xs = .fin v := by
  cases xs with
  | nil => exact absurd rfl hne
  | cons c t =>
      have hc : c = .fin v := hall c (List.mem_cons_self c t)
      rw [List.foldl_cons, hc]
      have hm : JsNum.min .inf (.fin v) = .fin v := rfl
      rw [hm]
      exact foldl_jsmin_const v t (fun x hx => hall x (List.mem_cons_of_mem c hx))

lemma foldl_jsmax_allv (v : ℚ) (xs : List JsNum) (hne : xs ≠ [])
    (hall : ∀ x ∈ xs, x = .fin v) : List.foldl JsNum.max .ninf xs = .fin v := by
  cases xs with
  | nil => exact absurd rfl hne
  | cons c t =>
      have hc : c = .fin v := hall c (List.mem_cons_self c t)
      rw [List.foldl_cons, hc]
      have hm : JsNum.max .ninf (.fin v) = .fin v := rfl
      rw [hm]
      exact foldl_jsmax_const v t (fun x hx => hall x (List.mem_cons_of_mem c hx))

/-- C7: for every non-empty input the bounds returned by `svgPathFromSeries`
include `0` in the y-range: `yMin ≤ 0 ≤ yMax`, whatever the payoff values
are. -/
theorem svgPathFromSeries_yrange_zero (x0 : ℚ) (xr qys : List ℚ) (w h p : ℚ) :
    ∃ b : Bounds,
      (svgPathFromSeries ((x0 :: xr).map .fin) (qys.map .fin) (.fin w) (.fin h)
          (.fin p)).bounds = some b ∧
      ∃ lo hi : ℚ, b.yMin = .fin lo ∧ b.yMax = .fin hi ∧ lo ≤ 0 ∧ 0 ≤ hi := by
  have hne : ((x0 :: xr).map JsNum.fin).length ≠ 0 := by simp
  rw [svg_nonempty_unfold _ _ _ _ _ hne]
  exact ⟨_, rfl, List.foldl Min.min 0 qys, List.foldl Max.max 0 qys,
    foldl_jsmin_append_zero qys, foldl_jsmax_append_zero qys,
    foldl_min_le_init qys 0, foldl_max_ge_init qys 0⟩

/-- C10 (implicit): the x-range divisor of `svgPathFromSeries` is not guarded
against zero; when all sample prices are equal the x-coordinate computation
is `0 / 0 = NaN` and every pixel x-coordinate in the returned path is `NaN`,
for arbitrary `ys`, width, height and padding. -/
theorem svgPathFromSeries_equal_xs_nan (v : ℚ) (xs ys : List JsNum) (w h p : JsNum)
    (hne : xs ≠ []) (hall : ∀ x ∈ xs, x = .fin v) :
    ∀ c ∈ (svgPathFromSeries xs ys w h p).path, c.xCoord = .nan := by
  have hlen : xs.length ≠ 0 := fun h0 => hne (List.length_eq_zero.mp h0)
  rw [svg_nonempty_unfold xs ys w h p hlen]
  intro c hc
  rcases List.mem_map.mp hc with ⟨i, hi, rfl⟩
  have hi' : i < xs.length := List.mem_range.mp hi
  have hxmin := foldl_jsmin_allv v xs hne hall
  have hxmax := foldl_jsmax_allv v xs hne hall
  have hxi : jsIndex xs i = .fin v := by
    have hgd : jsIndex xs i = xs.get ⟨i, hi'⟩ := by
      rw [jsIndex, List.getD_eq_getElem?_getD, List.getElem?_eq_getElem hi']
      rfl
    rw [hgd]
    exact hall _ (List.get_mem xs i hi')
  have hnan : xToPxFun (.fin v) (.fin v) (w.sub (p.mul (.fin 2))) p (.fin v) = .nan := by
    simp [xToPxFun, JsNum.zero_div_zero, JsNum.nan_mul, JsNum.add_nan]
  rw [hxmin, hxmax, hxi]
  by_cases h0 : i = 0
  · rw [if_pos h0]
    exact hnan
  · rw [if_neg h0]
    exact hnan

/-- Witness for C10: with the single-sample series `[5]` the produced path
command carries a `NaN` pixel x-coordinate. -/
theorem svgPathFromSeries_equal_xs_nan_witness :
    ((svgPathFromSeries [JsNum.fin 5] [] (.fin 300) (.fin 200) (.fin 30)).path.getD 0
      (.moveTo .nan .nan)).xCoord = .nan := by
  apply svgPathFromSeries_equal_xs_nan 5 [JsNum.fin 5] [] (.fin 300) (.fin 200) (.fin 30)
    (by simp) (by intro x hx; simpa using hx)
  rw [svg_nonempty_unfold _ _ _ _ _ (by simp)]
  simp [List.range_succ]

/-- C6: for every non-empty pair of parallel finite sequences and every
width, height and padding, `svgPathFromSeries` maps samples to pixels by the
spec's linear maps (`specPixelX`, `specPixelY` with inner sizes `viewport
minus twice the padding`), produces one command per sample in input order
(first a move-to, the rest line-to), and the bounds carry the pixel y of
payoff `0` together with the two coordinate-mapping functions. -/
theorem svgPathFromSeries_linear_map (x0 : ℚ) (xr qys : List ℚ) (w h p : ℚ)
    (hx : List.foldl Min.min x0 xr ≠ List.foldl Max.max x0 xr)
    (hy : List.foldl Min.min 0 qys ≠ List.foldl Max.max 0 qys)
    (hlen : qys.length = (x0 :: xr).length) :
    (svgPathFromSeries ((x0 :: xr).map .fin) (qys.map .fin) (.fin w) (.fin h)
        (.fin p)).path.length = (x0 :: xr).length ∧
    ∃ b : Bounds,
      (svgPathFromSeries ((x0 :: xr).map .fin) (qys.map .fin) (.fin w) (.fin h)
          (.fin p)).bounds = some b ∧
      b.xMin = .fin (List.foldl Min.min x0 xr) ∧
      b.xMax = .fin (List.foldl Max.max x0 xr) ∧
      b.yMin = .fin (List.foldl Min.min 0 qys) ∧
      b.yMax = .fin (List.foldl Max.max 0 qys) ∧
      (∀ x : ℚ, b.xToPx (.fin x) =
        .fin (specPixelX p (List.foldl Min.min x0 xr) (List.foldl Max.max x0 xr)
          (w - p * 2) x)) ∧
      (∀ y : ℚ, b.yToPx (.fin y) =
        .fin (specPixelY p (List.foldl Min.min 0 qys) (List.foldl Max.max 0 qys)
          (h - p * 2) y)) ∧
      b.yZero = .fin (specPixelY p (List.foldl Min.min 0 qys) (List.foldl Max.max 0 qys)
        (h - p * 2) 0) ∧
      (∀ i : ℕ, i < (x0 :: xr).length →
        (svgPathFromSeries ((x0 :: xr).map .fin) (qys.map .fin) (.fin w) (.fin h)
            (.fin p)).path.getD i (.moveTo .nan .nan) =
          (if i = 0 then PathCmd.moveTo else PathCmd.lineTo)
            (.fin (specPixelX p (List.foldl Min.min x0 xr) (List.foldl Max.max x0 xr)
              (w - p * 2) ((x0 :: xr).getD i 0)))
            (.fin (specPixelY p (List.foldl Min.min 0 qys) (List.foldl Max.max 0 qys)
              (h - p * 2) (qys.getD i 0)))) := by
  have hne : ((x0 :: xr).map JsNum.fin).length ≠ 0 := by simp
  have hxm := foldl_jsmin_inf x0 xr
  have hxM := foldl_jsmax_ninf x0 xr
  have hym := foldl_jsmin_append_zero qys
  have hyM := foldl_jsmax_append_zero qys
  have hinW : (JsNum.fin w).sub ((JsNum.fin p).mul (.fin 2)) = .fin (w - p * 2) := by simp
  have hinH : (JsNum.fin h).sub ((JsNum.fin p).mul (.fin 2)) = .fin (h - p * 2) := by simp
  have hxne : List.foldl Max.max x0 xr - List.foldl Min.min x0 xr ≠ 0 :=
    sub_ne_zero_of_ne (Ne.symm hx)
  have hyne : List.foldl Max.max 0 qys - List.foldl Min.min 0 qys ≠ 0 :=
    sub_ne_zero_of_ne (Ne.symm hy)
  rw [svg_nonempty_unfold _ _ _ _ _ hne]
  constructor
  · simp
  refine ⟨_, rfl, hxm, hxM, hym, hyM, ?_, ?_, ?_, ?_⟩
  · intro x
    show xToPxFun _ _ _ _ (.fin x) = _
    rw [hxm, hxM, hinW]
    exact xToPxFun_fin_eval _ _ _ _ _ hxne
  · intro y
    show yToPxFun _ _ _ _ (.fin y) = _
    rw [hym, hyM, hinH]
    exact yToPxFun_fin_eval _ _ _ _ _ hyne
  · show yToPxFun _ _ _ _ (.fin 0) = _
    rw [hym, hyM, hinH]
    exact yToPxFun_fin_eval _ _ _ _ _ hyne
  · intro i hi
    have hi1 : i < ((x0 :: xr).map JsNum.fin).length := by simpa using hi
    have hi2 : i < qys.length := by rw [hlen]; exact hi
    rw [getD_range_map _ _ _ i hi1]
    rw [hxm, hxM, hym, hyM, hinW, hinH]
    rw [jsIndex_map_fin (x0 :: xr) i hi, jsIndex_map_fin qys i hi2]
    by_cases h0 : i = 0
    · simp only [if_pos h0]
      rw [xToPxFun_fin_eval _ _ _ _ _ hxne, yToPxFun_fin_eval _ _ _ _ _ hyne]
    · simp only [if_neg h0]
      rw [xToPxFun_fin_eval _ _ _ _ _ hxne, yToPxFun_fin_eval _ _ _ _ _ hyne]

/-- Witness for C6: a two-sample series produces a two-command path. -/
theorem svgPathFromSeries_linear_map_witness :
    (svgPathFromSeries (([1, 2] : List ℚ).map .fin) (([0, 100] : List ℚ).map .fin)
      (.fin 900) (.fin 360) (.fin 34)).path.length = 2 := by
  have hres := svgPathFromSeries_linear_map 1 [2] [0, 100] 900 360 34
    (by norm_num [List.foldl_cons, List.foldl_nil])
    (by norm_num [List.foldl_cons, List.foldl_nil])
    (by norm_num)
  simpa using hres.1

/-- C8: on a degenerate payoff series (`yMax = yMin`, which with `0` always
included forces the flat all-zero curve) the y-divisor of
`svgPathFromSeries` falls back to `1`, every pixel y-coordinate of the path
equals the fixed offset `height - padding` (in particular it is finite), and
so does the zero-payoff axis pixel. -/
theorem svgPathFromSeries_flat_offset (x0 : ℚ) (xr qys : List ℚ) (w h p : ℚ)
    (hlen : qys.length = (x0 :: xr).length)
    (hflat : List.foldl Min.min 0 qys = List.foldl Max.max 0 qys) :
    (∀ c ∈ (svgPathFromSeries ((x0 :: xr).map .fin) (qys.map .fin) (.fin w) (.fin h)
        (.fin p)).path, c.yCoord = .fin (h - p) ∧ c.yCoord.isFinite = true) ∧
    ∃ b : Bounds,
      (svgPathFromSeries ((x0 :: xr).map .fin) (qys.map .fin) (.fin w) (.fin h)
          (.fin p)).bounds = some b ∧ b.yZero = .fin (h - p) := by
  have hne : ((x0 :: xr).map JsNum.fin).length ≠ 0 := by simp
  have hlo : List.foldl Min.min 0 qys ≤ 0 := foldl_min_le_init qys 0
  have hhi : (0 : ℚ) ≤ List.foldl Max.max 0 qys := foldl_max_ge_init qys 0
  have hlo0 : List.foldl Min.min 0 qys = 0 := le_antisymm hlo (hflat ▸ hhi)
  have hhi0 : List.foldl Max.max 0 qys = 0 := by rw [← hflat]; exact hlo0
  have hyall : ∀ y ∈ qys, y = 0 := fun y hy =>
    le_antisymm (hhi0 ▸ foldl_max_ge_mem qys 0 y hy) (hlo0 ▸ foldl_min_le_mem qys 0 y hy)
  have hym : List.foldl JsNum.min .inf (qys.map .fin ++ [.fin 0]) = .fin 0 := by
    rw [foldl_jsmin_append_zero, hlo0]
  have hyM : List.foldl JsNum.max .ninf (qys.map .fin ++ [.fin 0]) = .fin 0 := by
    rw [foldl_jsmax_append_zero, hhi0]
  have hinH : (JsNum.fin h).sub ((JsNum.fin p).mul (.fin 2)) = .fin (h - p * 2) := by simp
  have hzero : yToPxFun (.fin 0) (.fin 0) (.fin (h - p * 2)) (.fin p) (.fin 0) =
      .fin (h - p) := by
    rw [yToPxFun_fin_flat]
    congr 1
    ring
  rw [svg_nonempty_unfold _ _ _ _ _ hne]
  constructor
  · intro c hc
    rcases List.mem_map.mp hc with ⟨i, hi, rfl⟩
    have hi' : i < ((x0 :: xr).map JsNum.fin).length := List.mem_range.mp hi
    have hi2 : i < qys.length := by rw [hlen]; simpa using hi'
    have hyi : jsIndex (qys.map .fin) i = .fin 0 := by
      rw [jsIndex_map_fin qys i hi2]
      have hget : qys.getD i 0 = qys.get ⟨i, hi2⟩ := by
        rw [List.getD_eq_getElem?_getD, List.getElem?_eq_getElem hi2]
        rfl
      rw [hget, hyall _ (List.get_mem qys i hi2)]
    rw [hym, hyM, hinH, hyi]
    by_cases h0 : i = 0
    · simp only [if_pos h0]
      rw [hzero]
      exact ⟨rfl, rfl⟩
    · simp only [if_neg h0]
      rw [hzero]
      exact ⟨rfl, rfl⟩
  · refine ⟨_, rfl, ?_⟩
    show yToPxFun _ _ _ _ (.fin 0) = _
    rw [hym, hyM, hinH]
    exact hzero

/-- Witness for C8: the all-zero two-sample series at `900 × 360` with
padding `34` puts the zero axis at pixel y `360 - 34`. -/
theorem svgPathFromSeries_flat_offset_witness :
    ∃ b : Bounds,
      (svgPathFromSeries (([1, 2] : List ℚ).map .fin) (([0, 0] : List ℚ).map .fin)
        (.fin 900) (.fin 360) (.fin 34)).bounds = some b ∧ b.yZero = .fin (360 - 34) :=
  (svgPathFromSeries_flat_offset 1 [2] [0, 0] 900 360 34 (by norm_num)
    (by norm_num [List.foldl_cons, List.foldl_nil])).2
